import Mathlib

/-!
Verification development for the `api-fetch` service (CERNss/ainews-data).

The Go sources are shallowly embedded as Lean definitions:

* a decoded JSON value (the result of Go `json.Unmarshal` into `any`) is the
  inductive `Json` below; a JSON number is carried together with its Go `%v`
  rendering (the pipeline never performs arithmetic on numbers, it only
  compares `fmt.Sprint` renderings);
* Go maps produced by `json.Unmarshal` have unique keys, so a JSON object is
  an association list and map indexing is `List.lookup`;
* `time.Time` instants are `Int` seconds since the Unix epoch (Go ignores
  leap seconds); a `*time.Location` is a fixed UTC offset in seconds — the
  program only ever uses `Asia/Shanghai` (UTC+8 since 1991, no DST) and
  `time.FixedZone("CST", 8*3600)`;
* external library calls (`url.Parse`, `time.LoadLocation`) are parameters
  of the embedding (`GoEnv`), and the outcome of each attempt's external
  I/O (`HTTPClient.Do`, `io.ReadAll`, `json.Unmarshal` of the body,
  `InsertOne`) is an explicit `AttemptEnv`;
* a Go runtime panic (nil-pointer dereference, `Time.In(nil)`) is the
  explicit outcome `panicked`.
-/

/-- A decoded JSON value, the result of Go `json.Unmarshal` into `any`:
`nil`, `bool`, `float64` (kept with its `%v` rendering), `string`,
`[]any`, or `map[string]any` (unique keys, as an association list). -/
inductive Json where
  | null : Json
  | bool (b : Bool) : Json
  | num (render : String) : Json
  | str (s : String) : Json
  | arr (elems : List Json) : Json
  | obj (fields : List (String × Json)) : Json

/-- Lexicographic string order on code points — the byte-wise `<` Go's
`fmt` uses to sort map keys (UTF-8 byte order agrees with code-point
order). -/
def strLe (a b : String) : Bool :=
  go a.data b.data
where
  go : List Char → List Char → Bool
    | [], _ => true
    | _ :: _, [] => false
    | c1 :: r1, c2 :: r2 =>
        if c1.toNat = c2.toNat then go r1 r2 else decide (c1.toNat < c2.toNat)

/-- Insert a rendered map entry into a list sorted by key (Go `fmt` prints
map keys in sorted order). -/
def insertByKey (x : String × String) : List (String × String) → List (String × String)
  | [] => [x]
  | y :: ys => if strLe x.1 y.1 then x :: y :: ys else y :: insertByKey x ys

/-- Insertion sort by key for rendered map entries. -/
def sortByKey : List (String × String) → List (String × String)
  | [] => []
  | x :: xs => insertByKey x (sortByKey xs)

mutual

/-- Embeds Go `fmt.Sprint` on values decoded by `json.Unmarshal`:
`nil` prints `<nil>`, booleans print `true`/`false`, a number prints its
`%v` rendering, a string prints itself, a slice prints space-separated in
brackets, and a map prints `map[k1:v1 k2:v2 ...]` with keys sorted
(`goSprintList` and `goSprintFields` are the element-wise renderings of a
slice and of a map's entries). -/
def goSprint : Json → String
  | .null => "<nil>"
  | .bool true => "true"
  | .bool false => "false"
  | .num r => r
  | .str s => s
  | .arr elems => "[" ++ String.intercalate " " (goSprintList elems) ++ "]"
  | .obj fields =>
      "map[" ++ String.intercalate " "
        ((sortByKey (goSprintFields fields)).map fun e => e.2) ++ "]"

def goSprintList : List Json → List String
  | [] => []
  | j :: rest => goSprint j :: goSprintList rest

def goSprintFields : List (String × Json) → List (String × String)
  | [] => []
  | (k, v) :: rest => (k, k ++ ":" ++ goSprint v) :: goSprintFields rest

end

/-- The source definition (`model.APIInfo`).  The struct revision under
`src/` predates the `Required`/`DataField`/`UseFullResponse` fields that
`processor/api_processor.go` reads; those three fields are modelled from
the spec's SourceDefinition (`requiredFields` map of key → expected value,
extraction configuration `dataField` / `useFullResponse`) exactly as the
processor dereferences them. -/
structure APIInfo where
  name : String
  method : String
  url : String
  headers : List (String × String)
  params : List (String × String)
  source : String
  category : String
  infoType : String
  required : List (String × Json)
  dataField : String
  useFullResponse : Bool
  enabled : Bool

/-- A stored fetch result (`model.CrawlResult`): the BSON document inserted
into the day partition. `data` is a `bson.M`, i.e. an association list. -/
structure CrawlResult where
  date : String
  source : String
  category : String
  infoType : String
  data : List (String × Json)
  processed : Bool
  createdAt : Int

/-- `strings.ToUpper` restricted to ASCII, which is all the method strings
use (Go's full-Unicode case mapping agrees with this on ASCII). -/
def goToUpper (s : String) : String :=
  String.mk (s.data.map fun c =>
    if 'a' ≤ c ∧ c ≤ 'z' then Char.ofNat (c.toNat - 32) else c)

/-- A parsed `*url.URL`: an opaque base plus the decoded query values
(the only part of the URL the fetch pipeline manipulates). -/
structure URLRec where
  base : String
  query : List (String × String)
deriving DecidableEq, Repr

/-- `Set` on Go's `url.Values` / `http.Header`: replace the entry for the
key, or append it. -/
def setKV (k v : String) : List (String × String) → List (String × String)
  | [] => [(k, v)]
  | (k2, v2) :: rest => if k2 == k then (k, v) :: rest else (k2, v2) :: setKV k v rest

/-- The external Go library functions the pipeline calls, as parameters of
the embedding: `url.Parse` (also performed inside
`http.NewRequestWithContext`) and `time.LoadLocation` (a loaded location
is its fixed UTC offset in seconds; `none` means the zone database lookup
failed). -/
structure GoEnv where
  parseURL : String → Option URLRec
  loadLocation : String → Option Int

/-- An outbound `*http.Request` as far as the pipeline shapes one:
method, URL, headers, and the parameter payload carried in the body
(JSON- or form-encoded). -/
structure Request where
  method : String
  url : URLRec
  headers : List (String × String)
  body : Option (List (String × String))
deriving DecidableEq, Repr

/-- Result of `buildHTTPRequest`: a request, an error return, or a Go
runtime panic (nil-pointer dereference). -/
inductive BuildResult where
  | ok (req : Request)
  | err
  | panicked
deriving DecidableEq, Repr

/-- Embeds `Processor.buildHTTPRequest` (api_processor.go:177-244).

* `GET`: `u, _ := url.Parse(api.URL)` discards the parse error; when the
  URL does not parse, `u` is nil and `u.Query()` dereferences a nil
  pointer — a panic, not an error return.  Otherwise the parameters are
  `Set` into the query and the request is built (re-serializing a parsed
  URL cannot fail).
* `POST/JSON`: `json.Marshal` of a `map[string]string` cannot fail, so
  that error branch is dead.  `http.NewRequestWithContext` fails exactly
  when the URL does not parse, but its error is assigned to the
  case-scoped `err` shadowed by the `jsonData, err :=` declaration, so the
  outer `err` stays nil and the nil request escapes the switch; the
  header loop (or `HTTPClient.Do`) then dereferences it — a panic.
* `POST/FORM`: `req, err = ...` assigns the outer `err`, so an
  unparseable URL is reported as a build error.
* any other method: build error (`unsupported method`).

Definition headers from the source are `Set` after the method-specific
ones, overriding them. -/
def buildHTTPRequest (parseURL : String → Option URLRec) (api : APIInfo) : BuildResult :=
  let core : BuildResult :=
    match goToUpper api.method with
    | "GET" =>
        match parseURL api.url with
        | none => .panicked
        | some u =>
            let q := api.params.foldl (fun acc kv => setKV kv.1 kv.2 acc) u.query
            .ok { method := "GET", url := { u with query := q }, headers := [], body := none }
    | "POST/JSON" =>
        match parseURL api.url with
        | none => .panicked
        | some u =>
            .ok { method := "POST", url := u,
                  headers := [("Content-Type", "application/json")],
                  body := some api.params }
    | "POST/FORM" =>
        match parseURL api.url with
        | none => .err
        | some u =>
            .ok { method := "POST", url := u,
                  headers := [("Content-Type", "application/x-www-form-urlencoded")],
                  body := some (api.params.foldl (fun acc kv => setKV kv.1 kv.2 acc) []) }
    | _ => .err
  match core with
  | .ok req =>
      .ok { req with
            headers := api.headers.foldl (fun acc kv => setKV kv.1 kv.2 acc) req.headers }
  | other => other

/-- The error outcomes of `parseAndValidateJSON`. -/
inductive ValErr where
  | invalidJson
  | notObject
  | missingField (key : String)
  | mismatch (key : String)
deriving DecidableEq, Repr

/-- The `Required` loop of `parseAndValidateJSON` (api_processor.go:271-297):
every required key must exist in the parsed object, and its `fmt.Sprint`
rendering must equal the `fmt.Sprint` rendering of the expected value.
(Go iterates the map in unspecified order; which failing key is reported
may vary, but whether the check passes is order-independent.) -/
def checkRequired (parsedObj : List (String × Json)) :
    List (String × Json) → Except ValErr Unit
  | [] => .ok ()
  | (key, want) :: rest =>
      match parsedObj.lookup key with
      | none => .error (.missingField key)
      | some gotVal =>
          if goSprint gotVal = goSprint want then checkRequired parsedObj rest
          else .error (.mismatch key)

/-- Embeds `Processor.parseAndValidateJSON` (api_processor.go:247-300).
`parsed` is the `json.Unmarshal` result on the body (`none` = malformed
JSON); the top-level value must be a JSON object; then the required-field
check runs.  On success the parsed object itself is returned. -/
def parseAndValidateJSON (parsed : Option Json) (api : APIInfo) :
    Except ValErr (List (String × Json)) :=
  match parsed with
  | none => .error .invalidJson
  | some p =>
      match p with
      | .obj fields =>
          match checkRequired fields api.required with
          | .error e => .error e
          | .ok _ => .ok fields
      | _ => .error .notObject

/-- Embeds `Processor.convertToDataBson` (api_processor.go:381-390):
an object payload is stored as-is, an array is wrapped as
`{"items": [...]}`, any other (scalar) value is wrapped as `{"value": ...}`. -/
def convertToDataBson : Json → List (String × Json)
  | .obj fields => fields
  | .arr elems => [("items", .arr elems)]
  | v => [("value", v)]

/-- Embeds `Processor.extractData` (api_processor.go:303-342).  Precedence:
a configured custom `dataField` (which must exist), else `useFullResponse`
(whole object, stored as-is), else the default `"data"` key (which must
exist).  The error carries the missing key. -/
def extractData (parsedObj : List (String × Json)) (api : APIInfo) :
    Except String (List (String × Json) × String) :=
  if api.dataField ≠ "" then
    match parsedObj.lookup api.dataField with
    | some dataVal => .ok (convertToDataBson dataVal, "custom field: " ++ api.dataField)
    | none => .error api.dataField
  else if api.useFullResponse then
    .ok (parsedObj, "full response")
  else
    match parsedObj.lookup "data" with
    | some dataVal => .ok (convertToDataBson dataVal, "default data field")
    | none => .error "data"

/-- Civil date (year, month, day) of a day number (days since 1970-01-01,
proleptic Gregorian) — the calendar conversion performed inside Go's
`Time.Year/Month/Day` and `Time.Format`. -/
def civilFromDays (z0 : Int) : Int × Int × Int :=
  let z := z0 + 719468
  let era := z / 146097
  let doe := z - era * 146097
  let yoe := (doe - doe / 1460 + doe / 36524 - doe / 146096) / 365
  let doy := doe - (365 * yoe + yoe / 4 - yoe / 100)
  let mp := (5 * doy + 2) / 153
  let d := doy - (153 * mp + 2) / 5 + 1
  let m := mp + (if mp < 10 then 3 else -9)
  (yoe + era * 400 + (if m ≤ 2 then 1 else 0), m, d)

/-- Zero-pad a number to a width, as Go's `appendInt` does in `Time.Format`. -/
def padNum (w : Nat) (n : Int) : String :=
  let digits := toString n.natAbs
  let padded :=
    if digits.length < w then String.mk (List.replicate (w - digits.length) '0') ++ digits
    else digits
  if n < 0 then "-" ++ padded else padded

/-- `Time.Format` with a `2006 01 02` layout on a fixed-offset local time:
`localSec` is the instant already shifted into the location
(`t.In(loc)`), `sep` is the separator (`"-"` or `"_"`). -/
def formatDate (sep : String) (localSec : Int) : String :=
  let ymd := civilFromDays (localSec / 86400)
  padNum 4 ymd.1 ++ sep ++ padNum 2 ymd.2.1 ++ sep ++ padNum 2 ymd.2.2

/-- Embeds `helper.ConfigureTimeLocation` (helper/mongo.go:59-68): load the
named zone; when the load fails fall back to `time.FixedZone("CST",
8*3600)`.  The returned offset is the process-wide `shanghai` location the
helper package stores (the Go function always returns a nil error). -/
def ConfigureTimeLocation (loadLocation : String → Option Int) (name : String) : Int :=
  match loadLocation name with
  | some loc => loc
  | none => 8 * 3600

/-- Embeds `helper.ContentCollName` (helper/mongo.go:71-79): the day
partition name `content_YYYY_MM_DD` computed from the configured
process-wide location (`configured = none` models a forgotten
initialization, defended with the same fixed UTC+8 fallback). -/
def ContentCollName (configured : Option Int) (t : Int) : String :=
  let loc := match configured with
             | some l => l
             | none => 8 * 3600
  "content_" ++ formatDate "_" (t + loc)

/-- What one attempt's external I/O does, fixed per attempt:
whether `HTTPClient.Do` errors, whether `io.ReadAll` errors, what
`json.Unmarshal` yields on the body (`none` = malformed JSON), whether
`InsertOne` errors, and the `time.Now().UTC()` instant read for
`CreatedAt`. -/
structure AttemptEnv where
  doFails : Bool
  readFails : Bool
  parsed : Option Json
  insertFails : Bool
  insertNow : Int

/-- How one call of `fetchAndSave` ends. -/
inductive FetchOutcome where
  | success
  | buildErr
  | netErr
  | readErr
  | parseErr
  | notObject
  | missingRequired (key : String)
  | requiredMismatch (key : String)
  | missingDataField (key : String)
  | insertErr
  | panicked
deriving DecidableEq, Repr

/-- The boolean `fetchAndSave` actually returns in Go. -/
def FetchOutcome.ok : FetchOutcome → Bool
  | .success => true
  | _ => false

/-- One attempt, instrumented: the outcome (whose `.ok` is the Go return
value), how many `InsertOne` calls were made, and the documents the
attempt appended to the day partition. -/
structure AttemptResult where
  outcome : FetchOutcome
  insertCalls : Nat
  stored : List CrawlResult

/-- Map a validation error to the attempt outcome. -/
def ValErr.toOutcome : ValErr → FetchOutcome
  | .invalidJson => .parseErr
  | .notObject => .notObject
  | .missingField key => .missingRequired key
  | .mismatch key => .requiredMismatch key

/-- Embeds `Processor.saveToDatabase` (api_processor.go:345-378).  The
`date` field is computed from a fresh `time.LoadLocation("Asia/Shanghai")`
whose error is discarded: when the zone cannot be loaded, `shanghai` is
nil and `now.In(nil)` panics before any insert; there is no UTC+8
fallback here.  Otherwise the document is built and inserted once. -/
def saveToDatabase (g : GoEnv) (data : List (String × Json)) (api : APIInfo)
    (now : Int) (env : AttemptEnv) : AttemptResult :=
  match g.loadLocation "Asia/Shanghai" with
  | none => { outcome := .panicked, insertCalls := 0, stored := [] }
  | some off =>
      let doc : CrawlResult :=
        { date := formatDate "-" (now + off)
          source := api.source
          category := api.category
          infoType := api.infoType
          data := data
          processed := false
          createdAt := env.insertNow }
      if env.insertFails then { outcome := .insertErr, insertCalls := 1, stored := [] }
      else { outcome := .success, insertCalls := 1, stored := [doc] }

/-- Embeds `Processor.fetchAndSave` (api_processor.go:116-174): build the
request, run it, read the body, parse and validate, extract, save — the
first failing stage ends the attempt with a `false` return and nothing
else happens. -/
def fetchAndSave (g : GoEnv) (api : APIInfo) (env : AttemptEnv) (now : Int) : AttemptResult :=
  match buildHTTPRequest g.parseURL api with
  | .panicked => { outcome := .panicked, insertCalls := 0, stored := [] }
  | .err => { outcome := .buildErr, insertCalls := 0, stored := [] }
  | .ok _req =>
      if env.doFails then { outcome := .netErr, insertCalls := 0, stored := [] }
      else if env.readFails then { outcome := .readErr, insertCalls := 0, stored := [] }
      else
        match parseAndValidateJSON env.parsed api with
        | .error e => { outcome := e.toOutcome, insertCalls := 0, stored := [] }
        | .ok parsedObj =>
            match extractData parsedObj api with
            | .error key => { outcome := .missingDataField key, insertCalls := 0, stored := [] }
            | .ok (data, _strategy) => saveToDatabase g data api now env

/-- One Go `time.Duration` unit per second (`time.Second` in nanoseconds). -/
def second : Int := 1000000000

/-- Wrap to int64, the carrier of `time.Duration` (overflow cannot occur
for the retry counts the loop reaches, but `delay *= 2` is int64
multiplication). -/
def wrap64 (x : Int) : Int := (x + 2 ^ 63) % 2 ^ 64 - 2 ^ 63

/-- `k` executions of the loop body `delay *= 2`. -/
def doubleN : Nat → Int → Int
  | 0, d => d
  | k + 1, d => doubleN k (wrap64 (2 * d))

/-- Embeds `Processor.calculateRetryDelay` (api_processor.go:53-64):
15s for `retryCount <= 0`, otherwise 15s doubled `retryCount - 1` times. -/
def calculateRetryDelay (retryCount : Int) : Int :=
  if retryCount ≤ 0 then 15 * second
  else doubleN (retryCount - 1).toNat (15 * second)

/-- The delay `asyncRetryLoop` computes before re-running attempt
`attempt` (api_processor.go:72: `calculateRetryDelay(attempt - 1)`). -/
def waitBeforeAttempt (attempt : Nat) : Int :=
  calculateRetryDelay ((attempt : Int) - 1)

/-- The per-cycle environment of one dispatched source: the external I/O of
each numbered attempt, and whether `ctx.Done()` is already closed when the
backoff `select` before that attempt runs. -/
structure CycleEnv where
  envs : Nat → AttemptEnv
  cancelBefore : Nat → Bool

/-- How the whole retry state machine for one source ends. -/
inductive LoopResult where
  | success (attempt : Nat)
  | gaveUp
  | cancelled (attempt : Nat)
  | panicked (attempt : Nat)
deriving DecidableEq, Repr

/-- Instrumented state of a retry run: final result, attempts actually
issued (in order), documents appended to the day partition, and the
total number of `InsertOne` calls. -/
structure LoopState where
  result : LoopResult
  issued : List Nat
  stored : List CrawlResult
  insertCalls : Nat

/-- The body of `Processor.asyncRetryLoop` (api_processor.go:67-113) over
the list of remaining attempt numbers.  Before each attempt the loop
waits out `calculateRetryDelay(attempt-1)` in a `select`: a closed
`ctx.Done()` wins and the loop returns without issuing the attempt;
otherwise the attempt runs; success returns, failure continues; an empty
list is the `attempt > maxRetries` exit (give up). -/
def asyncRetryLoopGo (g : GoEnv) (api : APIInfo) (e : CycleEnv) (now : Int) :
    List Nat → LoopState
  | [] => { result := .gaveUp, issued := [], stored := [], insertCalls := 0 }
  | n :: rest =>
      if e.cancelBefore n then
        { result := .cancelled n, issued := [], stored := [], insertCalls := 0 }
      else
        let r := fetchAndSave g api (e.envs n) now
        if r.outcome = .panicked then
          { result := .panicked n, issued := [n], stored := r.stored, insertCalls := r.insertCalls }
        else if r.outcome.ok then
          { result := .success n, issued := [n], stored := r.stored, insertCalls := r.insertCalls }
        else
          let s := asyncRetryLoopGo g api e now rest
          { result := s.result, issued := n :: s.issued,
            stored := r.stored ++ s.stored, insertCalls := r.insertCalls + s.insertCalls }

/-- Embeds `Processor.asyncRetryLoop`: `for attempt := 2; attempt <=
maxRetries; attempt++` with `maxRetries = 5`. -/
def asyncRetryLoop (g : GoEnv) (api : APIInfo) (e : CycleEnv) (now : Int) : LoopState :=
  asyncRetryLoopGo g api e now [2, 3, 4, 5]

/-- The state of one source's dispatch: the retry run plus whether the
asynchronous retry goroutine was spawned. -/
structure RunOutcome where
  result : LoopResult
  issued : List Nat
  stored : List CrawlResult
  insertCalls : Nat
  retrySpawned : Bool

/-- Embeds `Processor.ProcessAPIWithRetry` (api_processor.go:38-51):
attempt 1 runs synchronously; on success the dispatch returns with no
goroutine spawned; on failure (whatever the failure) the asynchronous
retry loop is spawned for attempts 2..5.  A panic in the synchronous
attempt propagates out of the dispatch. -/
def ProcessAPIWithRetry (g : GoEnv) (api : APIInfo) (e : CycleEnv) (now : Int) : RunOutcome :=
  let r1 := fetchAndSave g api (e.envs 1) now
  if r1.outcome = .panicked then
    { result := .panicked 1, issued := [1], stored := r1.stored,
      insertCalls := r1.insertCalls, retrySpawned := false }
  else if r1.outcome.ok then
    { result := .success 1, issued := [1], stored := r1.stored,
      insertCalls := r1.insertCalls, retrySpawned := false }
  else
    let s := asyncRetryLoop g api e now
    { result := s.result, issued := 1 :: s.issued, stored := r1.stored ++ s.stored,
      insertCalls := r1.insertCalls + s.insertCalls, retrySpawned := true }

/-- The fixed daily anchor hours of the scheduler (scheduler.go:30). -/
def anchors : List Int := [0, 3, 6, 9, 12, 15, 18, 21]

/-- Embeds `next4x` (scheduler/scheduler.go:29-41): with instants as `Int`
seconds since epoch and a location as its fixed UTC offset `off`, the
composite `time.Date(local.Year(), local.Month(), local.Day(), h, 0, 0,
0, loc)` is the instant at `h:00:00` of the local civil day containing
`now`, i.e. `86400*((now+off)/86400) + h*3600 - off` (for a positive
divisor, `Int` division is floor division).  The loop returns the first
anchor instant not before `now`; if all have passed it returns 00:00 of
the next local day (`time.Date` with `Day()+1` normalizes the overflow to
the following day). -/
def next4x (now off : Int) : Int :=
  let localSec := now + off
  let dayStart := 86400 * (localSec / 86400)
  match anchors.find? (fun h => !decide (dayStart + h * 3600 - off < now)) with
  | some h => dayStart + h * 3600 - off
  | none => dayStart + 86400 - off

/-- `Time.Hour` of an instant in a fixed-offset location. -/
def goHour (t off : Int) : Int := (t + off) % 86400 / 3600

/-- `Time.Minute` of an instant in a fixed-offset location. -/
def goMinute (t off : Int) : Int := (t + off) % 3600 / 60

/-- `Time.Second` of an instant in a fixed-offset location. -/
def goSecond (t off : Int) : Int := (t + off) % 60

/-- The local civil-day number of an instant in a fixed-offset location. -/
def localDay (t off : Int) : Int := (t + off) / 86400

/-! Helper lemmas about single attempts and the retry loop. -/

theorem ValErr.toOutcome_not_ok (e : ValErr) : (ValErr.toOutcome e).ok = false := by
  cases e <;> rfl

theorem ValErr.toOutcome_ne_success (e : ValErr) : e.toOutcome ≠ FetchOutcome.success := by
  cases e <;> simp [ValErr.toOutcome]

theorem fetchAndSave_insert_le_one (g : GoEnv) (api : APIInfo) (env : AttemptEnv) (now : Int) :
    (fetchAndSave g api env now).insertCalls ≤ 1 := by
  unfold fetchAndSave saveToDatabase
  repeat' split
  all_goals simp

theorem fetchAndSave_ok_stored (g : GoEnv) (api : APIInfo) (env : AttemptEnv) (now : Int) :
    ((fetchAndSave g api env now).outcome.ok = true →
      (fetchAndSave g api env now).insertCalls = 1 ∧
      (fetchAndSave g api env now).stored.length = 1) ∧
    ((fetchAndSave g api env now).outcome.ok = false →
      (fetchAndSave g api env now).stored = []) := by
  unfold fetchAndSave saveToDatabase
  repeat' split <;> simp_all [ValErr.toOutcome_not_ok, ValErr.toOutcome_ne_success, FetchOutcome.ok]

theorem asyncRetryLoopGo_success (g : GoEnv) (api : APIInfo) (e : CycleEnv) (now : Int)
    (l : List Nat) (hl : l.Pairwise (· < ·)) (n : Nat)
    (h : (asyncRetryLoopGo g api e now l).result = .success n) :
    n ∈ l ∧
    (fetchAndSave g api (e.envs n) now).outcome.ok = true ∧
    (asyncRetryLoopGo g api e now l).stored = (fetchAndSave g api (e.envs n) now).stored ∧
    n ∈ (asyncRetryLoopGo g api e now l).issued ∧
    (∀ m ∈ (asyncRetryLoopGo g api e now l).issued, m ≤ n) := by
  induction l with
  | nil => simp [asyncRetryLoopGo] at h
  | cons a rest ih =>
    rw [List.pairwise_cons] at hl
    rw [asyncRetryLoopGo] at h ⊢
    by_cases hc : e.cancelBefore a = true
    · simp [hc] at h
    · by_cases hp : (fetchAndSave g api (e.envs a) now).outcome = .panicked
      · simp [hc, hp] at h
      · by_cases hk : (fetchAndSave g api (e.envs a) now).outcome.ok = true
        · simp only [hc, hp, hk] at h ⊢
          simp at h
          subst h
          simp [hk]
        · simp only [hc, hp, hk] at h ⊢
          simp [hk] at h ⊢
          obtain ⟨h1, h2, h3, h4, h5⟩ := ih hl.2 h
          have han : a < n := hl.1 n h1
          have hr0 : (fetchAndSave g api (e.envs a) now).stored = [] :=
            (fetchAndSave_ok_stored g api (e.envs a) now).2 (by simpa using hk)
          exact ⟨Or.inr h1, h2, by simp [hr0, h3], Or.inr h4, by omega, h5⟩

theorem asyncRetryLoopGo_cancelled (g : GoEnv) (api : APIInfo) (e : CycleEnv) (now : Int)
    (l : List Nat) (hl : l.Pairwise (· < ·)) (n : Nat)
    (h : (asyncRetryLoopGo g api e now l).result = .cancelled n) :
    n ∈ l ∧ e.cancelBefore n = true ∧
    n ∉ (asyncRetryLoopGo g api e now l).issued ∧
    (∀ m ∈ (asyncRetryLoopGo g api e now l).issued, m < n) := by
  induction l with
  | nil => simp [asyncRetryLoopGo] at h
  | cons a rest ih =>
    rw [List.pairwise_cons] at hl
    rw [asyncRetryLoopGo] at h ⊢
    by_cases hc : e.cancelBefore a = true
    · simp only [hc] at h ⊢
      simp at h
      subst h
      simp [hc]
    · by_cases hp : (fetchAndSave g api (e.envs a) now).outcome = .panicked
      · simp [hc, hp] at h
      · by_cases hk : (fetchAndSave g api (e.envs a) now).outcome.ok = true
        · simp [hc, hp, hk] at h
        · simp only [hc, hp, hk] at h ⊢
          simp [hk] at h ⊢
          obtain ⟨h1, h2, h3, h4⟩ := ih hl.2 h
          have han : a < n := hl.1 n h1
          exact ⟨Or.inr h1, h2, ⟨by omega, h3⟩, by omega, h4⟩

theorem asyncRetryLoopGo_allFail (g : GoEnv) (api : APIInfo) (e : CycleEnv) (now : Int)
    (l : List Nat)
    (hf : ∀ n ∈ l, (fetchAndSave g api (e.envs n) now).outcome.ok = false ∧
        (fetchAndSave g api (e.envs n) now).outcome ≠ .panicked)
    (hc : ∀ n ∈ l, e.cancelBefore n = false) :
    (asyncRetryLoopGo g api e now l).result = .gaveUp ∧
    (asyncRetryLoopGo g api e now l).issued = l := by
  induction l with
  | nil => simp [asyncRetryLoopGo]
  | cons a rest ih =>
    rw [asyncRetryLoopGo]
    have hfa := hf a (by simp)
    have hca := hc a (by simp)
    have := ih (fun n hn => hf n (by simp [hn])) (fun n hn => hc n (by simp [hn]))
    simp [hca, hfa.1, hfa.2, this.1, this.2]

/-! Concrete scenarios used by the closed-form theorems and witnesses. -/

/-- A `url.Parse` that succeeds on every URL (no query in the parse result). -/
def parseURLAll : String → Option URLRec := fun u => some { base := u, query := [] }

/-- A zone database where every lookup yields UTC+8 (`Asia/Shanghai`). -/
def loadLocationCST : String → Option Int := fun _ => some 28800

/-- A zone database where no named zone can be loaded. -/
def loadLocationMissing : String → Option Int := fun _ => none

/-- Normal external environment: URLs parse, `Asia/Shanghai` loads as UTC+8. -/
def goEnv8 : GoEnv := { parseURL := parseURLAll, loadLocation := loadLocationCST }

/-- Environment whose zone database cannot load any named zone. -/
def goEnvNoZone : GoEnv := { parseURL := parseURLAll, loadLocation := loadLocationMissing }

/-- A plain enabled GET source with default extraction and no required fields. -/
def plainGetApi : APIInfo :=
  { name := "src", method := "GET", url := "http://example.com/api", headers := [],
    params := [], source := "src", category := "cat", infoType := "daily",
    required := [], dataField := "", useFullResponse := false, enabled := true }

/-- The same source requiring `{"status": "ok"}` in every response. -/
def statusApi : APIInfo := { plainGetApi with required := [("status", Json.str "ok")] }

/-- An attempt whose response body is not valid JSON. -/
def envInvalidJson : AttemptEnv :=
  { doFails := false, readFails := false, parsed := none, insertFails := false, insertNow := 0 }

/-- An attempt whose response is `{"status": "error"}`. -/
def envStatusError : AttemptEnv := { envInvalidJson with parsed := some (.obj [("status", .str "error")]) }

/-- An attempt whose response is `{"data": [1,2,3]}`. -/
def envDataArr : AttemptEnv :=
  { envInvalidJson with parsed := some (.obj [("data", .arr [.num "1", .num "2", .num "3"])]) }

/-- Every attempt returns invalid JSON; no cancellation. -/
def cycleInvalidJson : CycleEnv := { envs := fun _ => envInvalidJson, cancelBefore := fun _ => false }

/-- Every attempt returns `{"status": "error"}`; no cancellation. -/
def cycleStatusError : CycleEnv := { envs := fun _ => envStatusError, cancelBefore := fun _ => false }

/-- Every attempt returns `{"data": [1,2,3]}`; no cancellation. -/
def cycleFirstOk : CycleEnv := { envs := fun _ => envDataArr, cancelBefore := fun _ => false }

/-- Every attempt returns invalid JSON; the context is cancelled during the
backoff wait before attempt 3. -/
def cycleCancel3 : CycleEnv := { envs := fun _ => envInvalidJson, cancelBefore := fun n => n == 3 }

/-! The claims. -/

/-- C2: for every attempt number n in 2..5, the wait computed before
re-running attempt n (`calculateRetryDelay(attempt-1)`) equals
15s × 2^(n-2) — 15s, 30s, 60s, 120s before attempts 2, 3, 4, 5 — each
strictly double the previous one. -/
theorem retryDelayDoubles :
    ∀ n ∈ [2, 3, 4, 5], waitBeforeAttempt n = 15 * 2 ^ (n - 2) * second ∧
      (n ≠ 2 → waitBeforeAttempt n = 2 * waitBeforeAttempt (n - 1)) := by
  decide

/-- Witness for C2 at n = 4: the wait before attempt 4 is 60s and is twice
the wait before attempt 3. -/
theorem retryDelayDoubles_witness :
    waitBeforeAttempt 4 = 15 * 2 ^ 2 * second ∧
    waitBeforeAttempt 4 = 2 * waitBeforeAttempt 3 := by
  have h := retryDelayDoubles 4 (by decide)
  exact ⟨h.1, h.2 (by decide)⟩

/-- C9 (code bug): for a GET source whose URL cannot be parsed, the code
does not report a build failure — `u, _ := url.Parse(api.URL)` discards
the error and `u.Query()` dereferences the nil result, a runtime panic,
instead of the error return the spec requires. -/
theorem getUnparseableURLPanics :
    buildHTTPRequest (fun _ => none) plainGetApi = .panicked ∧
    buildHTTPRequest (fun _ => none) plainGetApi ≠ .err := by
  exact ⟨rfl, by decide⟩

/-- C1 (counterexample): a terminal-class failure does not stop the retry
coordinator.  Attempt 1 of this source fails because the response body is
not valid JSON, yet attempts 2..5 are all still scheduled in the cycle. -/
theorem terminalFailureStillRetried :
    (fetchAndSave goEnv8 plainGetApi envInvalidJson 0).outcome = .parseErr ∧
    (ProcessAPIWithRetry goEnv8 plainGetApi cycleInvalidJson 0).issued = [1, 2, 3, 4, 5] ∧
    2 ∈ (ProcessAPIWithRetry goEnv8 plainGetApi cycleInvalidJson 0).issued := by
  refine ⟨rfl, rfl, by decide⟩

/-- C1 (amended): the retry coordinator does not classify failures: after
any failed (non-panicking) attempt it schedules the next attempt —
malformed JSON, a non-object top level and build failures included — and
it stops only on success, cancellation, or exhaustion of attempt 5.
Whenever all five attempts fail, whatever the failure class, all five are
issued and the loop gives up. -/
theorem allFailuresAreRetried (g : GoEnv) (api : APIInfo) (e : CycleEnv) (now : Int)
    (hf : ∀ n ∈ [1, 2, 3, 4, 5],
        (fetchAndSave g api (e.envs n) now).outcome.ok = false ∧
        (fetchAndSave g api (e.envs n) now).outcome ≠ .panicked)
    (hc : ∀ n ∈ [2, 3, 4, 5], e.cancelBefore n = false) :
    (ProcessAPIWithRetry g api e now).result = .gaveUp ∧
    (ProcessAPIWithRetry g api e now).issued = [1, 2, 3, 4, 5] := by
  have h1 := hf 1 (by simp)
  have hloop := asyncRetryLoopGo_allFail g api e now [2, 3, 4, 5]
    (fun n hn => hf n (by fin_cases hn <;> simp))
    (fun n hn => hc n hn)
  unfold ProcessAPIWithRetry
  simp only [asyncRetryLoop] at hloop
  simp [asyncRetryLoop, h1.1, h1.2, hloop.1, hloop.2]

/-- Witness for C1 (amended): in the invalid-JSON scenario every attempt
fails, so all five attempts are issued and the coordinator gives up. -/
theorem allFailuresAreRetried_witness :
    (ProcessAPIWithRetry goEnv8 plainGetApi cycleInvalidJson 0).result = .gaveUp ∧
    (ProcessAPIWithRetry goEnv8 plainGetApi cycleInvalidJson 0).issued = [1, 2, 3, 4, 5] :=
  allFailuresAreRetried goEnv8 plainGetApi cycleInvalidJson 0 (by decide) (by decide)

theorem checkRequired_ok_iff (parsedObj : List (String × Json)) (l : List (String × Json)) :
    checkRequired parsedObj l = .ok () ↔
      ∀ kv ∈ l, ∃ v, parsedObj.lookup kv.1 = some v ∧ goSprint v = goSprint kv.2 := by
  induction l with
  | nil => simp [checkRequired]
  | cons kv rest ih =>
    obtain ⟨key, want⟩ := kv
    rw [checkRequired]
    cases hlk : parsedObj.lookup key with
    | none =>
      simp only [hlk, List.forall_mem_cons]
      constructor
      · intro h
        exact absurd h (by simp)
      · rintro ⟨⟨v, hv, _⟩, _⟩
        simp [hlk] at hv
    | some gotVal =>
      by_cases hs : goSprint gotVal = goSprint want
      · simp [hlk, hs, ih]
      · simp only [hlk, hs, if_false, List.forall_mem_cons]
        constructor
        · intro h
          exact absurd h (by simp)
        · rintro ⟨⟨v, hv, hsv⟩, _⟩
          cases hv
          exact absurd hsv hs

/-- C4: validation of a parsed top-level object succeeds exactly when, for
every entry in the required-fields map, the key exists in the object and
the string representation of its value equals the string representation
of the expected value; and the concrete source requiring
`{"status": "ok"}` whose responses are always `{"status": "error"}` never
persists a result and gives up after 5 attempts. -/
theorem requiredFieldValidation :
    (∀ (api : APIInfo) (fields : List (String × Json)),
        parseAndValidateJSON (some (.obj fields)) api = .ok fields ↔
          ∀ kv ∈ api.required, ∃ v,
            fields.lookup kv.1 = some v ∧ goSprint v = goSprint kv.2) ∧
    (ProcessAPIWithRetry goEnv8 statusApi cycleStatusError 0).result = .gaveUp ∧
    (ProcessAPIWithRetry goEnv8 statusApi cycleStatusError 0).issued = [1, 2, 3, 4, 5] ∧
    (ProcessAPIWithRetry goEnv8 statusApi cycleStatusError 0).stored = [] := by
  refine ⟨?_, rfl, rfl, rfl⟩
  intro api fields
  rw [parseAndValidateJSON]
  cases hc : checkRequired fields api.required with
  | error e =>
    rw [← checkRequired_ok_iff]
    simp [hc]
  | ok u =>
    cases u
    rw [← checkRequired_ok_iff]
    simp [hc]

/-- Witness for C4: a response `{"status": "ok"}` passes the required-field
check of `statusApi`, by the validation characterization. -/
theorem requiredFieldValidation_witness :
    parseAndValidateJSON (some (.obj [("status", Json.str "ok")])) statusApi
      = .ok [("status", Json.str "ok")] :=
  (requiredFieldValidation.1 statusApi [("status", Json.str "ok")]).mpr
    (by
      intro kv hkv
      simp [statusApi, plainGetApi] at hkv
      subst hkv
      exact ⟨Json.str "ok", rfl, rfl⟩)

/-- C5: extraction follows the precedence custom `dataField` >
`useFullResponse` > default `"data"` key; a configured custom field or the
default `"data"` key must exist, and a missing target is an error; an
object payload is stored as-is, an array is wrapped as `{"items": [...]}`
and a scalar as `{"value": ...}`; and the spec's three concrete examples
hold under default extraction. -/
theorem extractionPrecedence :
    (∀ (api : APIInfo) (parsedObj : List (String × Json)) (v : Json),
        api.dataField ≠ "" → parsedObj.lookup api.dataField = some v →
        extractData parsedObj api =
          .ok (convertToDataBson v, "custom field: " ++ api.dataField)) ∧
    (∀ (api : APIInfo) (parsedObj : List (String × Json)),
        api.dataField ≠ "" → parsedObj.lookup api.dataField = none →
        extractData parsedObj api = .error api.dataField) ∧
    (∀ (api : APIInfo) (parsedObj : List (String × Json)),
        api.dataField = "" → api.useFullResponse = true →
        extractData parsedObj api = .ok (parsedObj, "full response")) ∧
    (∀ (api : APIInfo) (parsedObj : List (String × Json)) (v : Json),
        api.dataField = "" → api.useFullResponse = false →
        parsedObj.lookup "data" = some v →
        extractData parsedObj api = .ok (convertToDataBson v, "default data field")) ∧
    (∀ (api : APIInfo) (parsedObj : List (String × Json)),
        api.dataField = "" → api.useFullResponse = false →
        parsedObj.lookup "data" = none →
        extractData parsedObj api = .error "data") ∧
    (∀ fields, convertToDataBson (.obj fields) = fields) ∧
    (∀ elems, convertToDataBson (.arr elems) = [("items", .arr elems)]) ∧
    convertToDataBson .null = [("value", .null)] ∧
    (∀ b, convertToDataBson (.bool b) = [("value", .bool b)]) ∧
    (∀ r, convertToDataBson (.num r) = [("value", .num r)]) ∧
    (∀ s, convertToDataBson (.str s) = [("value", .str s)]) ∧
    extractData [("data", .arr [.num "1", .num "2", .num "3"])] plainGetApi
      = .ok ([("items", .arr [.num "1", .num "2", .num "3"])], "default data field") ∧
    extractData [("data", .str "x")] plainGetApi
      = .ok ([("value", .str "x")], "default data field") ∧
    extractData [("data", .obj [("a", .num "1")])] plainGetApi
      = .ok ([("a", .num "1")], "default data field") := by
  refine ⟨?_, ?_, ?_, ?_, ?_, fun _ => rfl, fun _ => rfl, rfl, fun _ => rfl,
    fun _ => rfl, fun _ => rfl, rfl, rfl, rfl⟩
  · intro api parsedObj v hdf hlk
    simp [extractData, hdf, hlk]
  · intro api parsedObj hdf hlk
    simp [extractData, hdf, hlk]
  · intro api parsedObj hdf hfull
    simp [extractData, hdf, hfull]
  · intro api parsedObj v hdf hfull hlk
    simp [extractData, hdf, hfull, hlk]
  · intro api parsedObj hdf hfull hlk
    simp [extractData, hdf, hfull, hlk]

/-- Witness for C5: with a custom data field configured, the configured key
takes precedence and its array value is wrapped as items. -/
theorem extractionPrecedence_witness :
    extractData [("rows", Json.arr [.num "7"]), ("data", .str "ignored")]
        { plainGetApi with dataField := "rows" }
      = .ok ([("items", Json.arr [.num "7"])], "custom field: rows") :=
  extractionPrecedence.1 { plainGetApi with dataField := "rows" }
    [("rows", Json.arr [.num "7"]), ("data", .str "ignored")]
    (Json.arr [.num "7"]) (by decide) rfl

/-- C10: per attempt, at most one `InsertOne` runs; it runs only when
request building, the HTTP call, the body read, JSON parsing and
validation, and extraction have all succeeded; an attempt that fails at
any earlier stage makes no insert, and any failed attempt appends nothing
to the day's partition (a successful attempt appends exactly one
document). -/
theorem insertOnlyAfterAllStages (g : GoEnv) (api : APIInfo) (env : AttemptEnv) (now : Int) :
    (fetchAndSave g api env now).insertCalls ≤ 1 ∧
    ((fetchAndSave g api env now).insertCalls = 1 →
      (∃ req, buildHTTPRequest g.parseURL api = .ok req) ∧
      env.doFails = false ∧ env.readFails = false ∧
      (∃ parsedObj, parseAndValidateJSON env.parsed api = .ok parsedObj ∧
        ∃ data strategy, extractData parsedObj api = .ok (data, strategy))) ∧
    ((fetchAndSave g api env now).outcome.ok = false → (fetchAndSave g api env now).stored = []) ∧
    ((fetchAndSave g api env now).outcome.ok = true →
      (fetchAndSave g api env now).insertCalls = 1 ∧
      (fetchAndSave g api env now).stored.length = 1) := by
  refine ⟨fetchAndSave_insert_le_one g api env now, ?_,
    (fetchAndSave_ok_stored g api env now).2, (fetchAndSave_ok_stored g api env now).1⟩
  unfold fetchAndSave saveToDatabase
  repeat' split
  all_goals simp_all

/-- Witness for C10: in a successful concrete attempt the insert ran once
and stored one document; the hypotheses are discharged by evaluation. -/
theorem insertOnlyAfterAllStages_witness :
    (fetchAndSave goEnv8 plainGetApi envDataArr 0).insertCalls = 1 ∧
    (fetchAndSave goEnv8 plainGetApi envDataArr 0).stored.length = 1 :=
  (insertOnlyAfterAllStages goEnv8 plainGetApi envDataArr 0).2.2.2 (by decide)

/-- C6: whenever a source's dispatch ends with a successful attempt n, the
day partition received exactly the one document of that successful
attempt, no attempt after n was issued, and when attempt 1 succeeded no
asynchronous retry task was spawned and attempt 1 was the only attempt. -/
theorem successStoresExactlyOne (g : GoEnv) (api : APIInfo) (e : CycleEnv) (now : Int) (n : Nat)
    (h : (ProcessAPIWithRetry g api e now).result = .success n) :
    (ProcessAPIWithRetry g api e now).stored = (fetchAndSave g api (e.envs n) now).stored ∧
    (ProcessAPIWithRetry g api e now).stored.length = 1 ∧
    (fetchAndSave g api (e.envs n) now).outcome.ok = true ∧
    (∀ m ∈ (ProcessAPIWithRetry g api e now).issued, m ≤ n) ∧
    (n = 1 → (ProcessAPIWithRetry g api e now).retrySpawned = false ∧
      (ProcessAPIWithRetry g api e now).issued = [1]) := by
  unfold ProcessAPIWithRetry at h ⊢
  by_cases hp : (fetchAndSave g api (e.envs 1) now).outcome = .panicked
  · simp [hp] at h
  · by_cases hk : (fetchAndSave g api (e.envs 1) now).outcome.ok = true
    · simp only [hp, hk] at h ⊢
      simp at h
      subst h
      simp [hk]
      exact ((fetchAndSave_ok_stored g api (e.envs 1) now).1 hk).2
    · simp only [hp, hk] at h ⊢
      simp [hk] at h ⊢
      rw [asyncRetryLoop] at h ⊢
      obtain ⟨h1, h2, h3, h4, h5⟩ :=
        asyncRetryLoopGo_success g api e now [2, 3, 4, 5] (by decide) n h
      have hn2 : 2 ≤ n := by simp at h1; omega
      have hr0 : (fetchAndSave g api (e.envs 1) now).stored = [] :=
        (fetchAndSave_ok_stored g api (e.envs 1) now).2 (by simpa using hk)
      refine ⟨by simp [hr0, h3], ?_, h2, ⟨by omega, h5⟩, by omega⟩
      simp [hr0, h3]
      exact ((fetchAndSave_ok_stored g api (e.envs n) now).1 h2).2

/-- Witness for C6: a source whose first attempt succeeds stores one
document, spawns no retry task and issues only attempt 1. -/
theorem successStoresExactlyOne_witness :
    (ProcessAPIWithRetry goEnv8 plainGetApi cycleFirstOk 0).retrySpawned = false ∧
    (ProcessAPIWithRetry goEnv8 plainGetApi cycleFirstOk 0).issued = [1] ∧
    (ProcessAPIWithRetry goEnv8 plainGetApi cycleFirstOk 0).stored.length = 1 := by
  have h := successStoresExactlyOne goEnv8 plainGetApi cycleFirstOk 0 1 rfl
  exact ⟨(h.2.2.2.2 rfl).1, (h.2.2.2.2 rfl).2, h.2.1⟩

/-- C7: if the retry loop ends because cancellation was observed during
the backoff wait before attempt n, then attempt n was never issued, and
neither was any later attempt. -/
theorem cancellationStopsRetries (g : GoEnv) (api : APIInfo) (e : CycleEnv) (now : Int) (n : Nat)
    (h : (ProcessAPIWithRetry g api e now).result = .cancelled n) :
    e.cancelBefore n = true ∧
    n ∉ (ProcessAPIWithRetry g api e now).issued ∧
    (∀ m ∈ (ProcessAPIWithRetry g api e now).issued, m < n) := by
  unfold ProcessAPIWithRetry at h ⊢
  by_cases hp : (fetchAndSave g api (e.envs 1) now).outcome = .panicked
  · simp [hp] at h
  · by_cases hk : (fetchAndSave g api (e.envs 1) now).outcome.ok = true
    · simp [hp, hk] at h
    · simp only [hp, hk] at h ⊢
      simp [hk] at h ⊢
      rw [asyncRetryLoop] at h ⊢
      obtain ⟨h1, h2, h3, h4⟩ :=
        asyncRetryLoopGo_cancelled g api e now [2, 3, 4, 5] (by decide) n h
      have hn2 : 2 ≤ n := by simp at h1; omega
      exact ⟨h2, ⟨by omega, h3⟩, by omega, h4⟩

/-- Witness for C7: cancellation asserted during the backoff before
attempt 3 ends the loop with attempts 1 and 2 issued and attempt 3 never
issued. -/
theorem cancellationStopsRetries_witness :
    (ProcessAPIWithRetry goEnv8 plainGetApi cycleCancel3 0).result = .cancelled 3 ∧
    3 ∉ (ProcessAPIWithRetry goEnv8 plainGetApi cycleCancel3 0).issued ∧
    (ProcessAPIWithRetry goEnv8 plainGetApi cycleCancel3 0).issued = [1, 2] := by
  have h := cancellationStopsRetries goEnv8 plainGetApi cycleCancel3 0 3 rfl
  exact ⟨rfl, h.2.1, rfl⟩

/-- Modelled from the spec: the claimed behavior of the stored `date`
field (§6 clock/timezone dependency) — "all date computations use a
single configured reference timezone (default a fixed UTC+8 offset if the
named zone cannot be loaded)", i.e. the date the save would produce if it
read the process-wide location set by `ConfigureTimeLocation`. -/
def specClaimedDateField (loadLocation : String → Option Int) (now : Int) : Option String :=
  some (formatDate "-" (now + ConfigureTimeLocation loadLocation "Asia/Shanghai"))

/-- C8 (counterexample): when the named zone cannot be loaded, the
configured process-wide location does fall back to fixed UTC+8 — so the
claim says the stored `date` field should still be computed (here
`1970-01-01`) — but `saveToDatabase` computes its date from a fresh
`time.LoadLocation("Asia/Shanghai")` with the error discarded, so the
save panics on `now.In(nil)` and stores nothing: the date field is not
computed from the single configured timezone. -/
theorem dateFieldNoUTC8Fallback :
    ConfigureTimeLocation loadLocationMissing "Asia/Shanghai" = 8 * 3600 ∧
    ContentCollName (some (ConfigureTimeLocation loadLocationMissing "Asia/Shanghai")) 0
      = "content_1970_01_01" ∧
    specClaimedDateField loadLocationMissing 0 = some "1970-01-01" ∧
    (saveToDatabase goEnvNoZone [] plainGetApi 0 envInvalidJson).outcome = .panicked ∧
    (saveToDatabase goEnvNoZone [] plainGetApi 0 envInvalidJson).stored = [] ∧
    (saveToDatabase goEnvNoZone [] plainGetApi 0 envInvalidJson).insertCalls = 0 := by
  refine ⟨rfl, rfl, rfl, rfl, rfl, rfl⟩

/-- C8 (amended): the startup configuration (`ConfigureTimeLocation`) and
the partition name (`ContentCollName`) do use a single process-wide
reference timezone with a fixed UTC+8 fallback, but the stored `date`
field is computed from a fresh `time.LoadLocation("Asia/Shanghai")` on
every save with its error ignored: when the zone loads, the date agrees
with one computed from that freshly loaded offset; when it cannot be
loaded, the save panics (`Time.In(nil)`) instead of falling back to
UTC+8. -/
theorem dateFieldFreshLoadZone :
    (∀ (loadLocation : String → Option Int) (off : Int),
        loadLocation "Asia/Shanghai" = some off →
        ConfigureTimeLocation loadLocation "Asia/Shanghai" = off) ∧
    (∀ loadLocation : String → Option Int,
        loadLocation "Asia/Shanghai" = none →
        ConfigureTimeLocation loadLocation "Asia/Shanghai" = 8 * 3600) ∧
    (∀ (configured t : Int),
        ContentCollName (some configured) t = "content_" ++ formatDate "_" (t + configured)) ∧
    (∀ (g : GoEnv) (data : List (String × Json)) (api : APIInfo) (now : Int)
        (env : AttemptEnv) (off : Int),
        g.loadLocation "Asia/Shanghai" = some off →
        env.insertFails = false →
        (saveToDatabase g data api now env).outcome = .success ∧
        (saveToDatabase g data api now env).stored =
          [{ date := formatDate "-" (now + off), source := api.source,
             category := api.category, infoType := api.infoType, data := data,
             processed := false, createdAt := env.insertNow }]) ∧
    (∀ (g : GoEnv) (data : List (String × Json)) (api : APIInfo) (now : Int)
        (env : AttemptEnv),
        g.loadLocation "Asia/Shanghai" = none →
        (saveToDatabase g data api now env).outcome = .panicked ∧
        (saveToDatabase g data api now env).insertCalls = 0 ∧
        (saveToDatabase g data api now env).stored = []) := by
  refine ⟨?_, ?_, fun _ _ => rfl, ?_, ?_⟩
  · intro loadLocation off h
    simp [ConfigureTimeLocation, h]
  · intro loadLocation h
    simp [ConfigureTimeLocation, h]
  · intro g data api now env off h hins
    simp [saveToDatabase, h, hins]
  · intro g data api now env h
    simp [saveToDatabase, h]

/-- Witness for C8 (amended): with a loadable UTC+8 zone and a working
insert, the save succeeds and stores the document dated from the freshly
loaded offset. -/
theorem dateFieldFreshLoadZone_witness :
    (saveToDatabase goEnv8 [] plainGetApi 0 envInvalidJson).outcome = .success ∧
    (saveToDatabase goEnv8 [] plainGetApi 0 envInvalidJson).stored =
      [{ date := formatDate "-" (0 + 28800), source := plainGetApi.source,
         category := plainGetApi.category, infoType := plainGetApi.infoType,
         data := [], processed := false, createdAt := envInvalidJson.insertNow }] :=
  dateFieldFreshLoadZone.2.2.2.1 goEnv8 [] plainGetApi 0 envInvalidJson 28800 rfl rfl

/-- C3: for every instant and every (fixed-offset) location, `next4x` is at
or after now, lands exactly on an anchor hour (0,3,6,9,12,15,18,21) with
minute and second zero (instants are whole seconds, so nanoseconds are
zero by construction), and when every anchor of the current local day is
strictly before now the result is 00:00 of the next local calendar day. -/
theorem next4xSpec (now off : Int) :
    now ≤ next4x now off ∧
    goHour (next4x now off) off ∈ anchors ∧
    goMinute (next4x now off) off = 0 ∧
    goSecond (next4x now off) off = 0 ∧
    ((∀ h ∈ anchors, 86400 * ((now + off) / 86400) + h * 3600 - off < now) →
      localDay (next4x now off) off = localDay now off + 1 ∧
      (next4x now off + off) % 86400 = 0) := by
  simp only [next4x]
  cases hfind : anchors.find?
      (fun h => !decide (86400 * ((now + off) / 86400) + h * 3600 - off < now)) with
  | none =>
    simp only [hfind]
    refine ⟨by omega, ?_, ?_, ?_, fun _ => ⟨?_, ?_⟩⟩
    · simp only [goHour, anchors, List.mem_cons, List.not_mem_nil, or_false]
      omega
    · simp only [goMinute]
      omega
    · simp only [goSecond]
      omega
    · simp only [localDay]
      omega
    · omega
  | some h =>
    have hp := List.find?_some hfind
    have hmem := List.mem_of_find?_eq_some hfind
    simp only [Bool.not_eq_eq_eq_not, Bool.not_true, decide_eq_false_iff_not, not_lt] at hp
    simp only [hfind]
    refine ⟨hp, ?_, ?_, ?_, fun hall => absurd (hall h hmem) (by omega)⟩
    · fin_cases hmem <;>
        · simp only [goHour, anchors, List.mem_cons, List.not_mem_nil, or_false]
          omega
    · fin_cases hmem <;>
        · simp only [goMinute]
          omega
    · fin_cases hmem <;>
        · simp only [goSecond]
          omega

/-- Witness for C3 at a local time of 22:00 (all anchors passed): the next
wake instant is at or after now, on an anchor, on the next local day. -/
theorem next4xSpec_witness :
    50400 ≤ next4x 50400 28800 ∧
    goHour (next4x 50400 28800) 28800 ∈ anchors ∧
    localDay (next4x 50400 28800) 28800 = localDay 50400 28800 + 1 := by
  have h := next4xSpec 50400 28800
  exact ⟨h.1, h.2.1, (h.2.2.2.2 (by decide)).1⟩
